import Mathlib

/-!
# Verification of the cashocs optimization core

Shallow embedding of the numerical core of the repository:

* `InnerLBFGS` — the active-set constrained limited-memory BFGS inner solver
  (`src/adpack/optimal_control/methods/pdas_inner_solvers/inner_lbfgs.py`):
  the two-loop recursion `compute_search_direction`, the descent safeguard and
  the history update of `run`.
* `Geometry` — the mesh transform handler and mesh-quality engine
  (`src/cestrel/geometry.py`): `move_mesh`, `revert_transformation`, the
  a priori determinant check, and the `MeshQuality` scores.

Machine floating point arithmetic is modelled by exact field arithmetic:
`ℚ` for the solver (all of its operations are `+ - * /`), and an arbitrary
`LinearOrderedField` for the mesh-quality scores (instantiated at `ℝ` where
the concrete angles are real multiples of `π`).  External collaborators (the
FEniCS field provider, the PETSc projection solves, the bounding-box tree)
enter as explicit data or function parameters: the inner product `B`, the
per-cell determinant values carried by a transformation, the stepsize and
the re-solved gradient of each iteration, and the a posteriori
self-intersection predicate.
-/

namespace InnerLBFGS

/-- A control/gradient vector: the flat coefficient array of the control
fields (the per-field blocks of `inner_lbfgs.py` concatenated). -/
abbrev Vec (n : ℕ) := Fin n → ℚ

/-- The all-zero vector. -/
def zeroVec (n : ℕ) : Vec n := fun _ => 0

/-- The Euclidean inner product, the concrete instance of
`form_handler.scalar_product` used for the spec's end-to-end scenarios. -/
def dot {n : ℕ} (a b : Vec n) : ℚ := ∑ i, a i * b i

/-- `v.vector()[idx_active] = 0.0`: set the entries at active indices to
zero (inner_lbfgs.py lines 48, 63, 72, 78, 96, 132). -/
def zeroActive {n : ℕ} (idx_active : Finset (Fin n)) (v : Vec n) : Vec n :=
  fun i => if i ∈ idx_active then 0 else v i

/-- Forward pass of the two-loop recursion (inner_lbfgs.py lines 50–54):
iterate over the history from most-recent (index 0) to oldest, computing
`alpha = rho_i * B(s_i, d)`, collecting the alphas in order, and updating
`d := d - alpha * y_i`.  The history is passed as the positional zip of
`history_s`, `history_y`, `history_rho`. -/
def forwardPass {n : ℕ} (B : Vec n → Vec n → ℚ)
    (hist : List (Vec n × Vec n × ℚ)) (d : Vec n) : Vec n × List ℚ :=
  match hist with
  | [] => (d, [])
  | (s, y, rho) :: rest =>
    let alpha := rho * B s d
    let r := forwardPass B rest (fun i => d i - alpha * y i)
    (r.1, alpha :: r.2)

/-- Backward pass of the two-loop recursion (inner_lbfgs.py lines 65–69):
iterate over the zipped history and alphas from oldest (the `[-1 - i]`
indexing) to most recent, computing `beta = rho * B(y, d)` and updating
`d := d + s * (alpha - beta)`.  The caller passes the reversed zip, which is
exactly the `[-1 - i]` traversal. -/
def backwardPass {n : ℕ} (B : Vec n → Vec n → ℚ)
    (items : List ((Vec n × Vec n × ℚ) × ℚ)) (d : Vec n) : Vec n :=
  match items with
  | [] => d
  | ((s, y, rho), alpha) :: rest =>
    let beta := rho * B y d
    backwardPass B rest (fun i => d i + s i * (alpha - beta))

/-- The value of the search direction in the history branch of
`compute_search_direction` (inner_lbfgs.py lines 44–72) immediately before
the final `*= -1` of line 73: seed with the gradient, zero the active
entries, forward pass, scale (by `B(y_0,s_0)/B(y_0,y_0)` when
`use_bfgs_scaling` and `iteration > 0`, else by 1), zero the active
entries, backward pass, and zero the active entries once more (line 72). -/
def two_loop_pre_negation {n : ℕ} (B : Vec n → Vec n → ℚ)
    (history_s history_y : List (Vec n)) (history_rho : List ℚ)
    (use_bfgs_scaling : Bool) (iteration : ℕ)
    (grad : Vec n) (idx_active : Finset (Fin n)) : Vec n :=
  let hist := history_s.zip (history_y.zip history_rho)
  let fp := forwardPass B hist (zeroActive idx_active grad)
  let factor : ℚ :=
    if use_bfgs_scaling = true ∧ 0 < iteration then
      B (history_y.headD (zeroVec n)) (history_s.headD (zeroVec n)) /
        B (history_y.headD (zeroVec n)) (history_y.headD (zeroVec n))
    else 1
  let d2 := zeroActive idx_active (fun i => factor * fp.1 i)
  zeroActive idx_active (backwardPass B ((hist.zip fp.2).reverse) d2)

/-- `InnerLBFGS.compute_search_direction` (inner_lbfgs.py lines 42–80).
When `memory_vectors > 0` and the history is non-empty, the two-loop
recursion followed by the final negation of line 73; otherwise the negated
gradient with active entries zeroed (lines 76–78). -/
def compute_search_direction {n : ℕ} (memory_vectors : ℕ) (B : Vec n → Vec n → ℚ)
    (history_s history_y : List (Vec n)) (history_rho : List ℚ)
    (use_bfgs_scaling : Bool) (iteration : ℕ)
    (grad : Vec n) (idx_active : Finset (Fin n)) : Vec n :=
  if 0 < memory_vectors ∧ 0 < history_s.length then
    fun i => -(two_loop_pre_negation B history_s history_y history_rho
      use_bfgs_scaling iteration grad idx_active i)
  else
    zeroActive idx_active (fun i => -(grad i))

/-- The history update of `InnerLBFGS.run` (inner_lbfgs.py lines 143–156):
push `(s, y, rho)` with `rho = 1 / B(y, s)` to the front of the three
deques; if `1 / rho ≤ 0` (curvature condition failed) replace all three by
fresh empty deques; finally, if the length now exceeds `memory_vectors`,
pop the oldest (rightmost) entry of each. -/
def historyUpdate {n : ℕ} (B : Vec n → Vec n → ℚ) (memory_vectors : ℕ)
    (history_s history_y : List (Vec n)) (history_rho : List ℚ)
    (s y : Vec n) : List (Vec n) × List (Vec n) × List ℚ :=
  let rho : ℚ := 1 / B y s
  let pushed : List (Vec n) × List (Vec n) × List ℚ :=
    (s :: history_s, y :: history_y, rho :: history_rho)
  let cleared : List (Vec n) × List (Vec n) × List ℚ :=
    if 1 / rho ≤ 0 then ([], [], []) else pushed
  if memory_vectors < cleared.1.length then
    (cleared.1.dropLast, cleared.2.1.dropLast, cleared.2.2.dropLast)
  else cleared

/-- The configuration and run inputs that stay fixed across the iterations
of one `run(idx_active)` call: `memory_vectors`, `use_bfgs_scaling`, the
scalar product of the form handler, and the active index set. -/
structure Params (n : ℕ) where
  memory_vectors : ℕ
  use_bfgs_scaling : Bool
  B : Vec n → Vec n → ℚ
  idx_active : Finset (Fin n)

/-- The mutable solver state threaded through the while loop of `run`:
the reduced gradient and the three history deques, plus the iteration
counter (which gates the BFGS scaling factor). -/
structure LState (n : ℕ) where
  reduced_gradient : Vec n
  history_s : List (Vec n)
  history_y : List (Vec n)
  history_rho : List ℚ
  iteration : ℕ

/-- The external effects of one iteration of `run`: the stepsize found by
`UnconstrainedLineSearch.search` and the new gradient returned by
`gradient_problem.solve`. -/
structure Oracle (n : ℕ) where
  stepsize : ℚ
  gradient : Vec n

/-- The L-BFGS direction of the current iteration (run line 106). -/
def searchDirection {n : ℕ} (p : Params n) (st : LState n) : Vec n :=
  compute_search_direction p.memory_vectors p.B st.history_s st.history_y
    st.history_rho p.use_bfgs_scaling st.iteration st.reduced_gradient
    p.idx_active

/-- The direction actually handed to `line_search.search` (run lines
106–114): the L-BFGS direction, overwritten by the negative reduced
gradient when the directional derivative
`B(search_directions, reduced_gradient)` is positive (lines 108–112). -/
def safeguarded {n : ℕ} (p : Params n) (st : LState n) : Vec n :=
  if 0 < p.B (searchDirection p st) st.reduced_gradient then
    fun i => -(st.reduced_gradient i)
  else searchDirection p st

/-- The displacement `s = stepsize * search_direction` stored into the
history (run line 141). -/
def pushS {n : ℕ} (p : Params n) (st : LState n) (o : Oracle n) : Vec n :=
  fun i => o.stepsize * safeguarded p st i

/-- The gradient difference `y = reduced_gradient - gradients_prev` stored
into the history (run line 140), where the new reduced gradient is the
re-solved gradient with active entries zeroed (lines 130–132). -/
def pushY {n : ℕ} (p : Params n) (st : LState n) (o : Oracle n) : Vec n :=
  fun i => zeroActive p.idx_active o.gradient i - st.reduced_gradient i

/-- One pass of the while-loop body of `InnerLBFGS.run` (lines 105–158):
compute the safeguarded direction, take the externally found stepsize,
recompute the reduced gradient from the externally re-solved gradient, and,
when memory is enabled, update the history with the new `(s, y)` pair. -/
def runIteration {n : ℕ} (p : Params n) (st : LState n) (o : Oracle n) :
    LState n :=
  let newRed := zeroActive p.idx_active o.gradient
  let h :=
    if 0 < p.memory_vectors then
      historyUpdate p.B p.memory_vectors st.history_s st.history_y
        st.history_rho (pushS p st o) (pushY p st o)
    else (st.history_s, st.history_y, st.history_rho)
  ⟨newRed, h.1, h.2.1, h.2.2, st.iteration + 1⟩

/-- The state at the top of the while loop of `run` (lines 86–99): the
reduced gradient of the freshly solved gradient, empty histories (the
deques are created empty in `__init__`), iteration counter `0`. -/
def initState {n : ℕ} (p : Params n) (gradient : Vec n) : LState n :=
  ⟨zeroActive p.idx_active gradient, [], [], [], 0⟩

/-- The while loop of `run`, driven by the list of per-iteration external
effects. -/
def runLoop {n : ℕ} (p : Params n) (st : LState n) (os : List (Oracle n)) :
    LState n :=
  os.foldl (runIteration p) st

/-- The deque invariant of the three histories: positionally corresponding
entries and length bounded by `memory_vectors`. -/
def histInv {n : ℕ} (m : ℕ) (st : LState n) : Prop :=
  st.history_s.length = st.history_y.length ∧
  st.history_y.length = st.history_rho.length ∧
  st.history_s.length ≤ m

/-- The history entry of the end-to-end scenario of §8 of the spec:
`s = y = [1, 0]` (also the scenario's reduced gradient). -/
def e10 : Vec 2 := ![1, 0]

end InnerLBFGS

namespace Np

/-- `np.min` on a (nonempty, as numpy requires) array; `0` is the junk
value for the empty list. -/
def min {α : Type*} [LinearOrder α] [Zero α] : List α → α
  | [] => 0
  | x :: xs => xs.foldl Min.min x

/-- `np.max` on a (nonempty) array; `0` is the junk value for the empty
list. -/
def max {α : Type*} [LinearOrder α] [Zero α] : List α → α
  | [] => 0
  | x :: xs => xs.foldl Max.max x

/-- `np.average` of an array: the sum divided by the length. -/
def average {K : Type*} [DivisionRing K] (l : List K) : K :=
  l.foldl (· + ·) 0 / (l.length : K)

end Np

namespace MeshQuality

/-! The compiled C++ quality kernel of `class MeshQuality`
(geometry.py lines 834–998).  A mesh is represented by the list of its
cells, each cell by the list of its angles — the planar angles of
`angles_triangle` for triangles, the dihedral angles of `dihedral_angles`
for tetrahedra; the angle extraction itself (arccosines of unit edge /
normal vector products on the dolfin `Point` type) is the external
geometry layer.  `pi` stands for the constant `DOLFIN_PI` and `opt_angle`
for the per-dimension optimal angle (`π/3` in 2D, `acos(1/3)` in 3D); the
score functions are polymorphic in the scalar field and are instantiated
at `ℝ` in the theorems. -/

variable {K : Type*} [LinearOrderedField K]

/-- The per-angle skewness score of the `skewness` kernel
(geometry.py line 945): `1 - max((ang - opt)/(pi - opt), (opt - ang)/opt)`. -/
def skew_score (pi opt_angle ang : K) : K :=
  1 - max ((ang - opt_angle) / (pi - opt_angle))
    ((opt_angle - ang) / opt_angle)

/-- The per-angle score of the `maximum_angle` kernel
(geometry.py line 984): `1 - max((ang - opt)/(pi - opt), 0)`. -/
def maxangle_score (pi opt_angle ang : K) : K :=
  1 - max ((ang - opt_angle) / (pi - opt_angle)) 0

/-- The per-cell array of the `skewness` mesh function
(geometry.py lines 915–950): each cell's value is the minimum per-angle
skewness score over its angles. -/
def skewness_cells (pi opt_angle : K) (cells : List (List K)) : List K :=
  cells.map (fun angs => Np.min (angs.map (skew_score pi opt_angle)))

/-- The per-cell array of the `maximum_angle` mesh function
(geometry.py lines 954–989). -/
def maximum_angle_cells (pi opt_angle : K) (cells : List (List K)) :
    List K :=
  cells.map (fun angs => Np.min (angs.map (maxangle_score pi opt_angle)))

/-- `MeshQuality.min_skewness` (geometry.py line 1040):
`np.min` of the `skewness` mesh function. -/
def min_skewness (pi opt_angle : K) (cells : List (List K)) : K :=
  Np.min (skewness_cells pi opt_angle cells)

/-- `MeshQuality.avg_skewness` (geometry.py line 1063).  Taken from the
source verbatim: the source returns
`np.average(cls._quality_object.maximum_angle(mesh).array())`, i.e. it
averages the `maximum_angle` mesh function, not the `skewness` one. -/
def avg_skewness (pi opt_angle : K) (cells : List (List K)) : K :=
  Np.average (maximum_angle_cells pi opt_angle cells)

/-- `MeshQuality.min_maximum_angle` (geometry.py line 1092). -/
def min_maximum_angle (pi opt_angle : K) (cells : List (List K)) : K :=
  Np.min (maximum_angle_cells pi opt_angle cells)

/-- `MeshQuality.avg_maximum_angle` (geometry.py line 1115). -/
def avg_maximum_angle (pi opt_angle : K) (cells : List (List K)) : K :=
  Np.average (maximum_angle_cells pi opt_angle cells)

/-- The quantity claim C7 (and the docstring of `avg_skewness` together
with `min_skewness`) describes: the average over all cells of the per-cell
skewness score.  Stated separately so it can be compared with the source's
`avg_skewness`. -/
def avg_skewness_spec (pi opt_angle : K) (cells : List (List K)) : K :=
  Np.average (skewness_cells pi opt_angle cells)

end MeshQuality

namespace Geometry

/-- A vector field on the mesh as `move_mesh` consumes it: its UFL element
data (`family`, `degree`), its per-vertex displacement values, and the
per-cell values of `det(I + ∇T)` that the a priori check's DG0 projection
solve (geometry.py lines 599–610, an external PETSc solve of the system
assembled from `L_prior`) extracts from it. -/
structure Transformation where
  family : String
  degree : ℕ
  vertex_values : List (List ℚ)
  cell_dets : List ℚ

/-- The mesh as `_MeshHandler` mutates it: the vertex coordinate array and
the one retained pre-move snapshot `old_coordinates`. -/
structure MeshState where
  coordinates : List (List ℚ)
  old_coordinates : List (List ℚ)

/-- `_MeshHandler.__test_a_priori` (geometry.py lines 579–615): when
`volume_change` is finite (`some v`; `none` models `float('inf')`),
accept iff `np.min` of the per-cell determinants is at least
`1 / volume_change` and `np.max` is at most `volume_change` (line 612);
when it is infinite, always accept (lines 614–615). -/
def test_a_priori (volume_change : Option ℚ) (t : Transformation) : Bool :=
  match volume_change with
  | some v => decide (1 / v ≤ Np.min t.cell_dets ∧ Np.max t.cell_dets ≤ v)
  | none => true

/-- `fenics.ALE.move(self.mesh, transformation)` (geometry.py line 448):
the perturbation of identity, adding the CG1 field's vertex values to the
vertex coordinates in place. -/
def ale_move (coordinates vals : List (List ℚ)) : List (List ℚ) :=
  List.zipWith (fun c v => List.zipWith (· + ·) c v) coordinates vals

/-- `_MeshHandler.revert_transformation` (geometry.py lines 455–468):
restore the retained snapshot into the coordinate array (the bounding-box
tree rebuild is external). -/
def revert_transformation (st : MeshState) : MeshState :=
  { st with coordinates := st.old_coordinates }

/-- `_MeshHandler.__test_a_posteriori` (geometry.py lines 619–653).  The
bounding-box-tree self-intersection scan over the moved geometry is the
external predicate `intersectionFree` (true iff no vertex collides with
more cells than topologically contain it); on failure the handler calls
`revert_transformation` and reports `False`, on success it recomputes the
cached quality (a pure read, not modelled) and reports `True`. -/
def test_a_posteriori (intersectionFree : List (List ℚ) → Bool)
    (st : MeshState) : Bool × MeshState :=
  if intersectionFree st.coordinates then (true, st)
  else (false, revert_transformation st)

/-- `_MeshHandler.move_mesh` (geometry.py lines 426–451): assert that the
transformation is a Lagrange family, degree-1 field (lines 441–442,
`AssertionError` with the message below otherwise); run the a priori
check, rejecting with no mutation on failure (lines 444–445); otherwise
snapshot the coordinates, apply the perturbation of identity and return
the a posteriori check's verdict (lines 447–451). -/
def move_mesh (volume_change : Option ℚ)
    (intersectionFree : List (List ℚ) → Bool)
    (st : MeshState) (t : Transformation) :
    Except String (Bool × MeshState) :=
  if t.family = "Lagrange" ∧ t.degree = 1 then
    if test_a_priori volume_change t = false then .ok (false, st)
    else
      .ok (test_a_posteriori intersectionFree
        { coordinates := ale_move st.coordinates t.vertex_values,
          old_coordinates := st.coordinates })
  else .error "Not a valid mesh transformation"

/-- `_MeshHandler.compute_mesh_quality` (geometry.py lines 657–686): the
dispatch on the configured quality type (`min`/`minimum` against anything
else) and measure.  The `radius_ratios` and `condition_number` per-cell
arrays come from external fenics / PETSc computations and are passed in;
`prev` is the previous cached value, kept when no measure branch fires. -/
def compute_mesh_quality {K : Type*} [LinearOrderedField K]
    (measure qtype : String) (pi opt_angle : K) (cells : List (List K))
    (radius_cells cond_cells : List K) (prev : K) : K :=
  if qtype = "min" ∨ qtype = "minimum" then
    if measure = "skewness" then MeshQuality.min_skewness pi opt_angle cells
    else if measure = "maximum_angle" then
      MeshQuality.min_maximum_angle pi opt_angle cells
    else if measure = "radius_ratios" then Np.min radius_cells
    else if measure = "condition_number" then Np.min cond_cells
    else prev
  else
    if measure = "skewness" then MeshQuality.avg_skewness pi opt_angle cells
    else if measure = "maximum_angle" then
      MeshQuality.avg_maximum_angle pi opt_angle cells
    else if measure = "radius_ratios" then Np.average radius_cells
    else if measure = "condition_number" then Np.average cond_cells
    else prev

end Geometry

namespace InnerLBFGS

theorem zeroActive_mem {n : ℕ} (idx_active : Finset (Fin n)) (v : Vec n)
    {i : Fin n} (hi : i ∈ idx_active) : zeroActive idx_active v i = 0 :=
  if_pos hi

theorem historyUpdate_clear {n : ℕ} (B : Vec n → Vec n → ℚ) (m : ℕ)
    (hs hy : List (Vec n)) (hr : List ℚ) (s y : Vec n)
    (h : B y s ≤ 0) : historyUpdate B m hs hy hr s y = ([], [], []) := by
  simp only [historyUpdate, one_div_one_div]
  rw [if_pos h]
  simp

theorem historyUpdate_keep {n : ℕ} (B : Vec n → Vec n → ℚ) (m : ℕ)
    (hs hy : List (Vec n)) (hr : List ℚ) (s y : Vec n)
    (hm : 0 < m) (h : 0 < B y s)
    (hsy : hs.length = hy.length) (hyr : hy.length = hr.length) :
    (historyUpdate B m hs hy hr s y).1.head? = some s ∧
    (historyUpdate B m hs hy hr s y).2.1.head? = some y ∧
    (historyUpdate B m hs hy hr s y).2.2.head? = some (1 / B y s) := by
  simp only [historyUpdate, one_div_one_div]
  rw [if_neg (not_le.mpr h)]
  by_cases hlen : m < (s :: hs).length
  · rw [if_pos hlen]
    match hs, hy, hr, hsy, hyr with
    | [], _, _, hsy, hyr =>
      exact absurd hlen (by simp; omega)
    | a :: hs, [], _, hsy, hyr => simp at hsy
    | a :: hs, b :: hy, [], hsy, hyr => simp at hyr
    | a :: hs, b :: hy, c :: hr, hsy, hyr => exact ⟨rfl, rfl, rfl⟩
  · rw [if_neg hlen]
    exact ⟨rfl, rfl, rfl⟩

theorem historyUpdate_lengths {n : ℕ} (B : Vec n → Vec n → ℚ) (m : ℕ)
    (hs hy : List (Vec n)) (hr : List ℚ) (s y : Vec n)
    (hsy : hs.length = hy.length) (hyr : hy.length = hr.length)
    (hle : hs.length ≤ m) :
    (historyUpdate B m hs hy hr s y).1.length =
      (historyUpdate B m hs hy hr s y).2.1.length ∧
    (historyUpdate B m hs hy hr s y).2.1.length =
      (historyUpdate B m hs hy hr s y).2.2.length ∧
    (historyUpdate B m hs hy hr s y).1.length ≤ m := by
  simp only [historyUpdate]
  by_cases hc : (1 : ℚ) / (1 / B y s) ≤ 0
  · rw [if_pos hc]; simp
  · rw [if_neg hc]
    by_cases hlen : m < (s :: hs).length
    · rw [if_pos hlen]
      simp only [List.length_cons] at hlen
      refine ⟨?_, ?_, ?_⟩ <;> simp [hsy, hyr] <;> omega
    · rw [if_neg hlen]
      simp only [not_lt, List.length_cons] at hlen
      refine ⟨?_, ?_, ?_⟩ <;> simp [hsy, hyr] <;> omega

theorem runIteration_histInv {n : ℕ} (p : Params n) (st : LState n)
    (o : Oracle n) (h : histInv p.memory_vectors st) :
    histInv p.memory_vectors (runIteration p st o) := by
  obtain ⟨h1, h2, h3⟩ := h
  unfold runIteration histInv
  by_cases hm : 0 < p.memory_vectors
  · simp only [if_pos hm]
    exact historyUpdate_lengths p.B p.memory_vectors st.history_s st.history_y
      st.history_rho (pushS p st o) (pushY p st o) h1 h2 h3
  · simp only [if_neg hm]
    exact ⟨h1, h2, h3⟩

theorem runLoop_histInv {n : ℕ} (p : Params n) (st : LState n)
    (os : List (Oracle n)) (h : histInv p.memory_vectors st) :
    histInv p.memory_vectors (runLoop p st os) := by
  induction os generalizing st with
  | nil => exact h
  | cons o os ih => exact ih _ (runIteration_histInv p st o h)

/-- **C3.** For every gradient, active set and history state, every entry
of `compute_search_direction`'s result at an active index is exactly `0`:
both branches end by zeroing the active entries (line 72 resp. 78), and the
final negation of line 73 maps `0` to `0`. -/
theorem C3_active_entries_zero {n : ℕ} (memory_vectors : ℕ)
    (B : Vec n → Vec n → ℚ) (history_s history_y : List (Vec n))
    (history_rho : List ℚ) (use_bfgs_scaling : Bool) (iteration : ℕ)
    (grad : Vec n) (idx_active : Finset (Fin n))
    (i : Fin n) (hi : i ∈ idx_active) :
    compute_search_direction memory_vectors B history_s history_y history_rho
      use_bfgs_scaling iteration grad idx_active i = 0 := by
  unfold compute_search_direction
  split
  · simp [two_loop_pre_negation, zeroActive_mem _ _ hi]
  · exact zeroActive_mem _ _ hi

/-- Witness for C3 at a concrete input: dimension 2, one history entry,
active set `{0}`. -/
theorem C3_active_entries_zero_witness :
    (0 : Fin 2) ∈ ({0} : Finset (Fin 2)) ∧
    compute_search_direction 1 dot [fun _ => 1] [fun _ => 1] [1] false 0
      (fun _ => 1) ({0} : Finset (Fin 2)) 0 = 0 :=
  ⟨by decide,
   C3_active_entries_zero 1 dot [fun _ => 1] [fun _ => 1] [1] false 0
     (fun _ => 1) ({0} : Finset (Fin 2)) 0 (by decide)⟩

/-- **C5.** With `memory_vectors = 0` or an empty history,
`compute_search_direction` is exactly the negated gradient with every
active entry set to `0` (inner_lbfgs.py lines 75–78). -/
theorem C5_steepest_descent {n : ℕ} (memory_vectors : ℕ)
    (B : Vec n → Vec n → ℚ) (history_s history_y : List (Vec n))
    (history_rho : List ℚ) (use_bfgs_scaling : Bool) (iteration : ℕ)
    (grad : Vec n) (idx_active : Finset (Fin n))
    (h : memory_vectors = 0 ∨ history_s = []) (i : Fin n) :
    compute_search_direction memory_vectors B history_s history_y history_rho
      use_bfgs_scaling iteration grad idx_active i
      = if i ∈ idx_active then 0 else -(grad i) := by
  unfold compute_search_direction
  rw [if_neg]
  · rfl
  · rcases h with h | h <;> simp [h]

/-- Witness for C5: the spec's dimension-5 scenario — zero history, reduced
gradient `[1,1,1,1,1]`, no active indices, direction `[-1,-1,-1,-1,-1]`. -/
theorem C5_steepest_descent_witness :
    ((0 : ℕ) = 0 ∨ ([] : List (Vec 5)) = []) ∧
    compute_search_direction 0 dot [] [] [] false 0 (fun _ => 1)
      (∅ : Finset (Fin 5)) 0 = -1 ∧
    compute_search_direction 0 dot [] [] [] false 0 (fun _ => 1)
      (∅ : Finset (Fin 5)) 1 = -1 ∧
    compute_search_direction 0 dot [] [] [] false 0 (fun _ => 1)
      (∅ : Finset (Fin 5)) 2 = -1 ∧
    compute_search_direction 0 dot [] [] [] false 0 (fun _ => 1)
      (∅ : Finset (Fin 5)) 3 = -1 ∧
    compute_search_direction 0 dot [] [] [] false 0 (fun _ => 1)
      (∅ : Finset (Fin 5)) 4 = -1 := by
  have h := C5_steepest_descent 0 dot ([] : List (Vec 5)) [] [] false 0
    (fun _ => 1) (∅ : Finset (Fin 5)) (Or.inl rfl)
  refine ⟨Or.inl rfl, ?_, ?_, ?_, ?_, ?_⟩
  · simpa using h 0
  · simpa using h 1
  · simpa using h 2
  · simpa using h 3
  · simpa using h 4

/-- Counterexample to C1: on the scenario `s = y = [1,0]`, `rho = 1`,
scaling disabled, gradient `[1,0]`, empty active set, the entry 0 of the
vector immediately before the final negation is `1`, not `0` — the
backward pass adds back `s * (alpha - beta) = [1, 0]`. -/
theorem C1_counterexample :
    two_loop_pre_negation dot [e10] [e10] [1] false 0 e10
      (∅ : Finset (Fin 2)) 0 ≠ 0 := by
  norm_num [two_loop_pre_negation, forwardPass, backwardPass, dot,
    zeroActive, e10, Fin.sum_univ_two, zeroVec]

/-- **C1 (amended).** On the scenario of §8 (`s = y = [1,0]`, `rho = 1`,
scaling disabled, reduced gradient `[1,0]`, empty active set) the two-loop
recursion yields `[1, 0]` immediately before the final negation — the
forward pass annihilates the seed but the backward pass restores `[1, 0]`
— and the returned search direction is `[-1, 0]`. -/
theorem C1_two_loop_scenario :
    two_loop_pre_negation dot [e10] [e10] [1] false 0 e10
      (∅ : Finset (Fin 2)) 0 = 1 ∧
    two_loop_pre_negation dot [e10] [e10] [1] false 0 e10
      (∅ : Finset (Fin 2)) 1 = 0 ∧
    compute_search_direction 1 dot [e10] [e10] [1] false 0 e10
      (∅ : Finset (Fin 2)) 0 = -1 ∧
    compute_search_direction 1 dot [e10] [e10] [1] false 0 e10
      (∅ : Finset (Fin 2)) 1 = 0 := by
  refine ⟨?_, ?_, ?_, ?_⟩ <;>
    simp [compute_search_direction, two_loop_pre_negation, forwardPass,
      backwardPass, dot, zeroActive, e10, Fin.sum_univ_two, zeroVec]

/-- **C2.** For every history update of `run` with memory enabled: when the
new pair has `B(y, s) ≤ 0` the three histories are replaced by empty
deques (full reset, lines 148–151), and when `B(y, s) > 0` the pushed
entry stays at the front. -/
theorem C2_curvature_reset {n : ℕ} (B : Vec n → Vec n → ℚ) (m : ℕ)
    (hm : 0 < m) (hs hy : List (Vec n)) (hr : List ℚ) (s y : Vec n)
    (hsy : hs.length = hy.length) (hyr : hy.length = hr.length) :
    (B y s ≤ 0 → historyUpdate B m hs hy hr s y = ([], [], [])) ∧
    (0 < B y s →
      (historyUpdate B m hs hy hr s y).1.head? = some s ∧
      (historyUpdate B m hs hy hr s y).2.1.head? = some y) := by
  refine ⟨fun h => historyUpdate_clear B m hs hy hr s y h, fun h => ?_⟩
  obtain ⟨h1, h2, _⟩ := historyUpdate_keep B m hs hy hr s y hm h hsy hyr
  exact ⟨h1, h2⟩

/-- Witness for C2: a pair violating the curvature condition
(`B(y, s) = -1 ≤ 0`) resets the history to three empty deques. -/
theorem C2_curvature_reset_witness :
    0 < 1 ∧
    historyUpdate dot 1 [] [] [] (fun _ : Fin 1 => (1 : ℚ))
      (fun _ : Fin 1 => (-1 : ℚ)) = ([], [], []) :=
  ⟨Nat.one_pos,
   (C2_curvature_reset dot 1 Nat.one_pos [] [] []
       (fun _ : Fin 1 => (1 : ℚ)) (fun _ : Fin 1 => (-1 : ℚ)) rfl rfl).1
     (by norm_num [dot])⟩

/-- **C4.** For every execution of `run` with `memory_vectors = m > 0`:
after every iteration the three histories have equal lengths bounded by
`m` (first conjunct, by the loop invariant from the empty initial state),
and the update is most-recent-first — whenever the pushed pair is kept
(positive curvature) it sits at index 0 of the updated deques (second
conjunct). -/
theorem C4_history_deque_invariant {n : ℕ} (p : Params n)
    (hm : 0 < p.memory_vectors) (gradient : Vec n) (os : List (Oracle n)) :
    histInv p.memory_vectors (runLoop p (initState p gradient) os) ∧
    (∀ st : LState n, histInv p.memory_vectors st → ∀ o : Oracle n,
      0 < p.B (pushY p st o) (pushS p st o) →
      (runIteration p st o).history_s.head? = some (pushS p st o) ∧
      (runIteration p st o).history_y.head? = some (pushY p st o)) := by
  constructor
  · exact runLoop_histInv p _ os ⟨rfl, rfl, Nat.zero_le _⟩
  · intro st hinv o hpos
    obtain ⟨h1, h2, _⟩ := hinv
    unfold runIteration
    simp only [if_pos hm]
    obtain ⟨k1, k2, _⟩ := historyUpdate_keep p.B p.memory_vectors
      st.history_s st.history_y st.history_rho (pushS p st o) (pushY p st o)
      hm hpos h1 h2
    exact ⟨k1, k2⟩

/-- Witness for C4: one concrete iteration with `m = 1` from the empty
initial state keeps the invariant. -/
theorem C4_history_deque_invariant_witness :
    histInv 1 (runLoop (⟨1, false, dot, ∅⟩ : Params 1)
      (initState (⟨1, false, dot, ∅⟩ : Params 1) (fun _ => 1))
      [⟨1, fun _ => 2⟩]) :=
  (C4_history_deque_invariant (⟨1, false, dot, ∅⟩ : Params 1) Nat.one_pos
    (fun _ => 1) [⟨1, fun _ => 2⟩]).1

/-- **C6.** In every iteration of `run`, if the L-BFGS direction `d` has
`B(d, reduced_gradient) > 0` it is discarded and the direction handed to
the line search is `-reduced_gradient`; otherwise `d` is passed unchanged
(run lines 106–114). -/
theorem C6_descent_safeguard {n : ℕ} (p : Params n) (st : LState n) :
    (0 < p.B (searchDirection p st) st.reduced_gradient →
      safeguarded p st = fun i => -(st.reduced_gradient i)) ∧
    (p.B (searchDirection p st) st.reduced_gradient ≤ 0 →
      safeguarded p st = searchDirection p st) := by
  constructor
  · intro h
    unfold safeguarded
    rw [if_pos h]
  · intro h
    unfold safeguarded
    rw [if_neg (not_lt.mpr h)]

end InnerLBFGS

namespace Geometry

/-- **C8.** The a priori gate of `move_mesh`: with finite
`volume_change = v > 1` the check accepts iff the per-cell values of
`det(I + ∇T)` satisfy `min ≥ 1/v` and `max ≤ v`; with
`volume_change = ∞` it always accepts; and on a priori rejection
`move_mesh` returns failure with the mesh state untouched. -/
theorem C8_a_priori_check (v : ℚ) (hv : 1 < v) (t : Transformation)
    (hT : t.family = "Lagrange" ∧ t.degree = 1)
    (st : MeshState) (intersectionFree : List (List ℚ) → Bool) :
    (test_a_priori (some v) t = true ↔
      1 / v ≤ Np.min t.cell_dets ∧ Np.max t.cell_dets ≤ v) ∧
    test_a_priori none t = true ∧
    (test_a_priori (some v) t = false →
      move_mesh (some v) intersectionFree st t = .ok (false, st)) := by
  refine ⟨by simp [test_a_priori], rfl, fun h => ?_⟩
  unfold move_mesh
  rw [if_pos hT, if_pos h]

/-- Witness for C8: `volume_change = 2` and a transformation with a cell
determinant `3` is rejected, mesh unchanged — the spec's §8 scenario. -/
theorem C8_a_priori_check_witness :
    (1 : ℚ) < 2 ∧
    move_mesh (some 2) (fun _ => true) ⟨[[0, 0]], [[0, 0]]⟩
      ⟨"Lagrange", 1, [[0, 0]], [3]⟩ = .ok (false, ⟨[[0, 0]], [[0, 0]]⟩) :=
  ⟨by norm_num,
   (C8_a_priori_check 2 (by norm_num) ⟨"Lagrange", 1, [[0, 0]], [3]⟩
     ⟨rfl, rfl⟩ ⟨[[0, 0]], [[0, 0]]⟩ (fun _ => true)).2.2
     (by simp [test_a_priori, Np.min, Np.max]; norm_num)⟩

/-- **C9.** When the a priori check passes, `move_mesh` followed by
`revert_transformation` restores the vertex coordinates exactly to the
pre-move snapshot — whether or not the a posteriori check passed (on its
failure `move_mesh` has already reverted, and reverting again is the
identity on the coordinates). -/
theorem C9_move_then_revert (volume_change : Option ℚ)
    (intersectionFree : List (List ℚ) → Bool) (st : MeshState)
    (t : Transformation) (hT : t.family = "Lagrange" ∧ t.degree = 1)
    (hpass : test_a_priori volume_change t = true)
    (b : Bool) (st1 : MeshState)
    (h : move_mesh volume_change intersectionFree st t = .ok (b, st1)) :
    (revert_transformation st1).coordinates = st.coordinates := by
  unfold move_mesh at h
  rw [if_pos hT, if_neg (by simp [hpass])] at h
  simp only [test_a_posteriori] at h
  split at h
  · simp only [Except.ok.injEq, Prod.mk.injEq] at h
    rw [← h.2]
    rfl
  · simp only [Except.ok.injEq, Prod.mk.injEq] at h
    rw [← h.2]
    rfl

/-- Witness for C9: a concrete accepted move of the single vertex `(0,0)`
by `(1,1)`; reverting restores `[[0,0]]`. -/
theorem C9_move_then_revert_witness :
    (revert_transformation ⟨[[(1 : ℚ), 1]], [[0, 0]]⟩).coordinates
      = [[(0 : ℚ), 0]] :=
  C9_move_then_revert none (fun _ => true) ⟨[[0, 0]], [[5, 5]]⟩
    ⟨"Lagrange", 1, [[1, 1]], []⟩ ⟨rfl, rfl⟩ rfl true ⟨[[1, 1]], [[0, 0]]⟩
    (by simp [move_mesh, test_a_priori, test_a_posteriori, ale_move])

/-- **C10.** `move_mesh` fails with the assertion error exactly when the
transformation is not a Lagrange degree-1 (CG1) field; the assert is the
first statement of the method, so neither the a priori check nor any
coordinate mutation is reached, and for CG1 fields the assert never
fires. -/
theorem C10_move_mesh_requires_cg1 (volume_change : Option ℚ)
    (intersectionFree : List (List ℚ) → Bool) (st : MeshState)
    (t : Transformation) :
    move_mesh volume_change intersectionFree st t =
        .error "Not a valid mesh transformation"
      ↔ ¬ (t.family = "Lagrange" ∧ t.degree = 1) := by
  unfold move_mesh
  by_cases hT : t.family = "Lagrange" ∧ t.degree = 1
  · rw [if_pos hT]
    simp only [hT, not_true_eq_false, iff_false]
    split
    · simp
    · simp [test_a_posteriori]
  · rw [if_neg hT]
    simp [hT]

end Geometry

namespace MeshQuality

/-- **C7 (code divergence).** With measure `skewness` and an averaging
type, `compute_mesh_quality` dispatches to `avg_skewness`, and on the
one-cell mesh whose angle list is `[π/6, π/3, π/2]` (the list
`angles_triangle` produces for the triangle with vertices `(0,0)`,
`(1,0)`, `(1,1/√3)`) the source computes `3/4` — the average of the
per-cell `maximum_angle` scores — while the average of the per-cell
skewness scores the claim (and the method's own docstring) describes is
`1/2`.  The minimum per-angle skewness score of this cell comes from the
small angle `π/6`, which the `maximum_angle` score ignores. -/
theorem C7_avg_skewness_divergence :
    Geometry.compute_mesh_quality "skewness" "avg" Real.pi (Real.pi / 3)
        [[Real.pi / 6, Real.pi / 3, Real.pi / 2]] [] [] 0 = 3 / 4 ∧
    avg_skewness_spec Real.pi (Real.pi / 3)
        [[Real.pi / 6, Real.pi / 3, Real.pi / 2]] = 1 / 2 ∧
    Geometry.compute_mesh_quality "skewness" "avg" Real.pi (Real.pi / 3)
        [[Real.pi / 6, Real.pi / 3, Real.pi / 2]] [] [] 0 ≠
      avg_skewness_spec Real.pi (Real.pi / 3)
        [[Real.pi / 6, Real.pi / 3, Real.pi / 2]] := by
  have hdispatch : Geometry.compute_mesh_quality "skewness" "avg" Real.pi
      (Real.pi / 3) [[Real.pi / 6, Real.pi / 3, Real.pi / 2]] [] [] (0 : ℝ)
      = avg_skewness Real.pi (Real.pi / 3)
        [[Real.pi / 6, Real.pi / 3, Real.pi / 2]] := rfl
  have hp : (0 : ℝ) < Real.pi := Real.pi_pos
  have hne : Real.pi - Real.pi / 3 ≠ 0 := ne_of_gt (by linarith)
  have hopt : Real.pi / 3 ≠ 0 := by positivity
  have r1 : (Real.pi / 6 - Real.pi / 3) / (Real.pi - Real.pi / 3)
      = -(1 / 4) := by
    rw [div_eq_iff hne]; ring
  have r2 : (Real.pi / 3 - Real.pi / 6) / (Real.pi / 3) = 1 / 2 := by
    rw [div_eq_iff hopt]; ring
  have r3 : (Real.pi / 3 - Real.pi / 3) / (Real.pi - Real.pi / 3) = 0 := by
    rw [div_eq_iff hne]; ring
  have r4 : (Real.pi / 3 - Real.pi / 3) / (Real.pi / 3) = 0 := by
    rw [div_eq_iff hopt]; ring
  have r5 : (Real.pi / 2 - Real.pi / 3) / (Real.pi - Real.pi / 3)
      = 1 / 4 := by
    rw [div_eq_iff hne]; ring
  have r6 : (Real.pi / 3 - Real.pi / 2) / (Real.pi / 3) = -(1 / 2) := by
    rw [div_eq_iff hopt]; ring
  have hcode : Geometry.compute_mesh_quality "skewness" "avg" Real.pi
      (Real.pi / 3) [[Real.pi / 6, Real.pi / 3, Real.pi / 2]] [] [] (0 : ℝ)
      = 3 / 4 := by
    rw [hdispatch]
    simp only [avg_skewness, maximum_angle_cells, maxangle_score,
      List.map_cons, List.map_nil, Np.min, Np.average, List.foldl_cons,
      List.foldl_nil, List.length_cons, List.length_nil]
    rw [r1, r3, r5]
    norm_num [min_def, max_def]
  have hspec : avg_skewness_spec Real.pi (Real.pi / 3)
      [[Real.pi / 6, Real.pi / 3, Real.pi / 2]] = 1 / 2 := by
    simp only [avg_skewness_spec, skewness_cells, skew_score,
      List.map_cons, List.map_nil, Np.min, Np.average, List.foldl_cons,
      List.foldl_nil, List.length_cons, List.length_nil]
    rw [r1, r2, r3, r4, r5, r6]
    norm_num [min_def, max_def]
  refine ⟨hcode, hspec, ?_⟩
  rw [hcode, hspec]
  norm_num

end MeshQuality
